import Mathlib

/-!
Verification of `utils.py`: a shallow embedding of the module's value model,
the `MISSING` sentinel, the attribute matcher `get`, the documentation
registry `Docs`, and the error-handling decorator `ErrorHandler`, together
with theorems settling the specification claims.
-/

/-- Universe of Python values appearing in the claims: `None`, booleans,
integers, strings, and instances of the module's `_MissingSentinel` class
(src/utils.py lines 21-36).  Distinct sentinel instances are told apart by an
identity tag, mirroring Python object identity. -/
inductive PyVal where
  | none
  | bool (b : Bool)
  | int (i : Int)
  | str (s : String)
  | missingSentinel (id : Nat)
deriving DecidableEq, Repr

/-- The module-level singleton `MISSING = _MissingSentinel()` (src/utils.py line 36). -/
def MISSING : PyVal := .missingSentinel 0

/-- Python truthiness of the embedded values.  `_MissingSentinel.__bool__`
returns `False` (src/utils.py lines 26-27); the other cases are standard
Python truthiness. -/
def pyBool : PyVal → Bool
  | .none => false
  | .bool b => b
  | .int i => i != 0
  | .str s => s != ""
  | .missingSentinel _ => false

/-- Python `==` on the embedded values.  `_MissingSentinel.__eq__` returns
`False` for every operand (src/utils.py lines 29-30); a reflected comparison
`x == MISSING` also yields `False` because the sentinel's `__eq__` answers the
reflected call.  `True == 1` holds in Python, hence the bool/int cases. -/
def pyEq : PyVal → PyVal → Bool
  | .missingSentinel _, _ => false
  | _, .missingSentinel _ => false
  | .bool a, .int b => (if a then (1 : Int) else 0) = b
  | .int a, .bool b => a = (if b then (1 : Int) else 0)
  | .none, .none => true
  | .bool a, .bool b => a = b
  | .int a, .int b => a = b
  | .str a, .str b => a = b
  | _, _ => false

/-- The decimal digit characters, as produced by Python's integer `repr`. -/
def digitCh : Nat → Char
  | 0 => '0'
  | 1 => '1'
  | 2 => '2'
  | 3 => '3'
  | 4 => '4'
  | 5 => '5'
  | 6 => '6'
  | 7 => '7'
  | 8 => '8'
  | _ => '9'

/-- Decimal digit test on characters. -/
def isDigitCh (c : Char) : Bool := 48 ≤ c.toNat && c.toNat ≤ 57

/-- Big-endian decimal digits of a natural number (`[0]` for zero). -/
def bigDigits (n : Nat) : List Nat :=
  if n = 0 then [0] else (Nat.digits 10 n).reverse

/-- Decimal rendering of a natural number, as Python's `repr` prints it. -/
def natChars (n : Nat) : List Char := (bigDigits n).map digitCh

/-- Decimal rendering of an integer, as Python's `repr` prints it. -/
def intChars (i : Int) : List Char :=
  if i < 0 then '-' :: natChars i.natAbs else natChars i.toNat

/-- Escaping of a string body under quote character `q`: Python's string
`repr` escapes the backslash and the chosen quote character (for printable
ASCII content these are the only escapes). -/
def escapeBody (q : Char) : List Char → List Char
  | [] => []
  | c :: cs =>
    if c = '\\' || c = q then '\\' :: c :: escapeBody q cs
    else c :: escapeBody q cs

/-- Python's quote choice for string `repr`: single quotes, unless the string
contains a single quote and no double quote. -/
def quoteChoice (l : List Char) : Char :=
  if l.contains '\'' && !l.contains '"' then '"' else '\''

/-- Python `repr` of a string with printable-ASCII content. -/
def strLitChars (l : List Char) : List Char :=
  let q := quoteChoice l
  q :: (escapeBody q l ++ [q])

/-- Python `repr` of an embedded value, as a character list.
`_MissingSentinel.__repr__` returns `'...'` (src/utils.py lines 32-33); the
other cases follow Python's `repr` for literals (faithful for
printable-ASCII string content). -/
def pyReprChars : PyVal → List Char
  | .none => "None".data
  | .bool true => "True".data
  | .bool false => "False".data
  | .int i => intChars i
  | .str s => strLitChars s.data
  | .missingSentinel _ => "...".data

/-- Python `repr` of an embedded value. -/
def pyRepr (v : PyVal) : String := String.mk (pyReprChars v)

/-- A raised Python failure: its class name, message, and whether the class
derives from `Exception` (as opposed to only `BaseException`, e.g.
`KeyboardInterrupt` or `SystemExit`). -/
structure Exc where
  isException : Bool
  typeName : String
  msg : String
deriving DecidableEq, Repr

/-- Outcome of calling a Python function: a normal return or a raised failure. -/
inductive PyResult (β : Type) where
  | ok : β → PyResult β
  | raised : Exc → PyResult β
deriving DecidableEq, Repr

/-- Instrumentation counters for one call of the `error_handling` wrapper:
how many times the wrapper body invoked the wrapped function and how many
times it invoked the `cls.on_error` hook. -/
structure Counters where
  funcCalls : Nat
  onErrorCalls : Nat
deriving DecidableEq, Repr

/-- Type of the `on_error` hook: it receives the failure, the wrapped
function, and the original call arguments (src/utils.py line 240), and its
invocation either returns normally or raises. -/
def OnErrorHook (α : Type) : Type :=
  Exc → (α → PyResult PyVal) → α → PyResult PyVal

/-- Default `ErrorHandler.on_error`: `raise error` (src/utils.py lines 240-253),
re-raising the received failure unchanged. -/
def ErrorHandler.on_error {α : Type} : OnErrorHook α :=
  fun error _func _args => .raised error

/-- Embedding of the wrapper built by `ErrorHandler.error_handling`
(src/utils.py lines 271-282).  The wrapper calls `func(*args, **kwargs)` in a
`try` block; `except Exception as e` catches exactly the failures whose class
derives from `Exception`; if `ignore_exception` it returns `None`, otherwise
it calls `cls.on_error(e, func, *args, **kwargs)`, discards its return value,
and falls off the end of the wrapper (returning `None`) unless the hook
itself raised.  The second component instruments the wrapper body's call
sites: how often it invoked `func` and how often it invoked the hook; the
first component is exactly the source wrapper's outcome. -/
def ErrorHandler.error_handling {α : Type} (onErr : OnErrorHook α)
    (ignore_exception : Bool) (func : α → PyResult PyVal) (args : α) :
    PyResult PyVal × Counters :=
  match func args with
  | .ok v => (.ok v, ⟨1, 0⟩)
  | .raised e =>
    if e.isException then
      if ignore_exception then (.ok PyVal.none, ⟨1, 0⟩)
      else
        match onErr e func args with
        | .ok _ => (.ok PyVal.none, ⟨1, 1⟩)
        | .raised e2 => (.raised e2, ⟨1, 1⟩)
    else (.raised e, ⟨1, 0⟩)

/-- Candidate objects traversed by `get`: either a plain value or an object
with named attributes. -/
inductive Obj where
  | val (v : PyVal)
  | obj (attrs : List (String × Obj))

/-- Attribute lookup in an attribute list. -/
def lookupAttr : List (String × Obj) → String → Option Obj
  | [], _ => Option.none
  | (k, v) :: rest, attr => if k = attr then some v else lookupAttr rest attr

/-- Embedding of Python `getattr(var, attr)`: succeeds with the attribute's
value, or raises `AttributeError` when the attribute does not exist (plain
values carry no attributes in this model). -/
def getattrFn (o : Obj) (attr : String) : Except String Obj :=
  match o with
  | .obj attrs =>
    match lookupAttr attrs attr with
    | some v => .ok v
    | Option.none => .error ("AttributeError: " ++ attr)
  | .val _ => .error ("AttributeError: " ++ attr)

/-- Embedding of `copy(item)` (src/utils.py line 97): a shallow copy; on the
immutable embedded objects copying is the identity. -/
def pyCopy (o : Obj) : Obj := o

/-- Python `==` between a resolved attribute value and an expected value
(src/utils.py line 102).  Leaf values compare by Python value equality;
objects without `__eq__` compare by identity, which distinct embedded
objects never share. -/
def objEq : Obj → Obj → Bool
  | .val a, .val b => pyEq a b
  | _, _ => false

/-- Splitting a character list at `'.'`, mirroring Python's `k.split('.')`
(an empty string yields one empty segment, exactly as in Python). -/
def splitDots : List Char → List (List Char)
  | [] => [[]]
  | c :: rest =>
    if c = '.' then [] :: splitDots rest
    else
      match splitDots rest with
      | s :: ss => (c :: s) :: ss
      | [] => [[c]]

/-- The inner loop of `get` (src/utils.py lines 99-100): resolve each path
segment in turn via `getattr`. -/
def resolveAttrList (o : Obj) : List String → Except String Obj
  | [] => .ok o
  | a :: rest =>
    match getattrFn o a with
    | .ok v => resolveAttrList v rest
    | .error e => .error e

/-- Resolution of one dotted condition path against a candidate:
`var = copy(item)`, then `for attr in k.split('.'): var = getattr(var, attr)`
(src/utils.py lines 97-100). -/
def resolvePath (item : Obj) (k : String) : Except String Obj :=
  resolveAttrList (pyCopy item) ((splitDots k.data).map String.mk)

/-- The `flags` list built for one candidate (src/utils.py lines 94-102):
one boolean per condition, in condition order; an attribute-resolution
failure on any condition raises out of the loop. -/
def itemFlags (item : Obj) : List (String × Obj) → Except String (List Bool)
  | [] => .ok []
  | (k, v) :: rest =>
    match resolvePath item k with
    | .error e => .error e
    | .ok var =>
      match itemFlags item rest with
      | .error e => .error e
      | .ok flags => .ok (objEq var v :: flags)

/-- Whether a candidate satisfies all conditions: `all(flags)`
(src/utils.py line 104), or the raised failure. -/
def itemMatches (item : Obj) (conditions : List (String × Obj)) :
    Except String Bool :=
  match itemFlags item conditions with
  | .error e => .error e
  | .ok flags => .ok (flags.all id)

/-- Embedding of `get` (src/utils.py lines 57-107): scan the iterable in
order, return the first candidate whose flags are all true, `None` when the
iterable is exhausted, and propagate any attribute-resolution failure.  The
source name `get` is kept inside the `Utils` namespace (for the module
`utils.py`) to avoid clashing with library names. -/
def Utils.get : List Obj → List (String × Obj) → Except String (Option Obj)
  | [], _ => .ok Option.none
  | item :: rest, conditions =>
    match itemFlags item conditions with
    | .error e => .error e
    | .ok flags =>
      if flags.all id then .ok (some item) else Utils.get rest conditions

/-- Embedding of `Content` (src/utils.py lines 134-159): a captured
documentation string and arbitrary extra metadata. -/
structure Content where
  description : Option String
  extra : PyVal
deriving DecidableEq, Repr

/-- The Python value stored under the `'description'` key of
`Content.to_dict`: the doc string, or `None` when absent. -/
def descVal : Option String → PyVal
  | Option.none => PyVal.none
  | some s => .str s

/-- Embedding of `Content.to_dict` (src/utils.py lines 151-155): the pair of
values under the fixed keys `'description'` and `'extra'`, in that insertion
order. -/
def Content.to_dict (c : Content) : PyVal × PyVal :=
  (descVal c.description, c.extra)

/-- Embedding of `Docs` (src/utils.py lines 163-184): the registry's `__data`
dict, as an insertion-ordered association list with unique keys. -/
structure Docs where
  data : List (String × Content)
deriving DecidableEq, Repr

/-- Python dict assignment `d[k] = v`: overwrite in place when the key is
present (keeping its position, as Python dicts do), else append. -/
def dictInsert (k : String) (v : Content) : List (String × Content) → List (String × Content)
  | [] => [(k, v)]
  | (k0, v0) :: rest =>
    if k0 = k then (k, v) :: rest else (k0, v0) :: dictInsert k v rest

/-- Python dict lookup `d[k]`. -/
def dictLookup (k : String) : List (String × Content) → Option Content
  | [] => Option.none
  | (k0, v0) :: rest => if k0 = k then some v0 else dictLookup k rest

/-- The function metadata `register_doc` reads: `func.__qualname__` (the
module/class-qualified name), `func.__doc__`, and the callable behavior. -/
structure PyFunc (α β : Type) where
  qualname : String
  doc : Option String
  call : α → β

/-- Embedding of the decorator produced by `Docs.register_doc(extra)`
(src/utils.py lines 212-220): at decoration time it stores
`Content(description=func.__doc__, extra=extra)` under `func.__qualname__`,
and returns the pass-through `wrapper(*args, **kwargs)` that forwards to
`func`.  The result is the updated registry together with the wrapper. -/
def Docs.register_doc (docs : Docs) (extra : PyVal) (func : PyFunc α β) :
    Docs × (α → β) :=
  (⟨dictInsert func.qualname ⟨func.doc, extra⟩ docs.data⟩,
   fun args => func.call args)

/-- The mapping structure `Docs.to_dict` exposes. -/
def DocsDict : Type := List (String × (PyVal × PyVal))

instance : DecidableEq DocsDict := by
  unfold DocsDict
  infer_instance

/-- Embedding of `Docs.to_dict` (src/utils.py lines 180-181). -/
def Docs.to_dict (d : Docs) : DocsDict :=
  d.data.map (fun kc => (kc.1, kc.2.to_dict))

/-- Rendering of one `Content.to_dict` dict, as Python's `str` prints it. -/
def contentChars (c : Content) : List Char :=
  "\x7b'description': ".data ++ pyReprChars (descVal c.description) ++
    ", 'extra': ".data ++ pyReprChars c.extra ++ ['\x7d']

/-- Rendering of one registry entry `repr(key): str(content_dict)`. -/
def entryChars (kc : String × Content) : List Char :=
  strLitChars kc.1.data ++ ": ".data ++ contentChars kc.2

/-- Rendering of the comma-separated entry list of a Python dict. -/
def entriesChars : List (String × Content) → List Char
  | [] => []
  | [kc] => entryChars kc
  | kc :: rest => entryChars kc ++ ',' :: ' ' :: entriesChars rest

/-- Rendering of the full registry dict, as Python's `str` prints it. -/
def docsChars (d : Docs) : List Char :=
  '\x7b' :: (entriesChars d.data ++ ['\x7d'])

/-- Embedding of `Docs.__str__` (src/utils.py lines 183-184):
`str(self.to_dict())`. -/
def Docs.render (d : Docs) : String := String.mk (docsChars d)

/-- Matching of a literal character sequence at the front of the input. -/
def expectLit : List Char → List Char → Option (List Char)
  | [], cs => some cs
  | _ :: _, [] => Option.none
  | p :: ps, c :: cs => if c = p then expectLit ps cs else Option.none

/-- Reconstruction of a quoted-string body (for C8): read until the closing
quote `q`, undoing backslash escapes. -/
def parseStrBody (q : Char) : List Char → Option (List Char × List Char)
  | [] => Option.none
  | c :: cs =>
    if c = '\\' then
      match cs with
      | [] => Option.none
      | c2 :: cs2 =>
        match parseStrBody q cs2 with
        | some (l, r) => some (c2 :: l, r)
        | Option.none => Option.none
    else if c = q then some ([], cs)
    else
      match parseStrBody q cs with
      | some (l, r) => some (c :: l, r)
      | Option.none => Option.none

/-- Reconstruction of a maximal run of decimal digits (for C8). -/
def parseDigits : List Char → List Nat × List Char
  | [] => ([], [])
  | c :: cs =>
    if isDigitCh c then
      let p := parseDigits cs
      ((c.toNat - 48) :: p.1, p.2)
    else ([], c :: cs)

/-- Value of a big-endian decimal digit list. -/
def natOfBE (ds : List Nat) : Nat := ds.foldl (fun a d => 10 * a + d) 0

/-- Reconstruction of a nonempty digit run as a natural number (for C8). -/
def parseNatNum (cs : List Char) : Option (Nat × List Char) :=
  match parseDigits cs with
  | ([], _) => Option.none
  | (ds, r) => some (natOfBE ds, r)

/-- Reconstruction of one rendered Python literal (for C8): a quoted string,
a signed decimal integer, `None`, `True`, or `False`. -/
def parsePyVal (cs : List Char) : Option (PyVal × List Char) :=
  match cs with
  | [] => Option.none
  | c :: cs' =>
    if c = '\'' || c = '"' then
      match parseStrBody c cs' with
      | some (l, r) => some (.str (String.mk l), r)
      | Option.none => Option.none
    else if c = '-' then
      match parseNatNum cs' with
      | some (n, r) => some (.int (-(n : Int)), r)
      | Option.none => Option.none
    else if isDigitCh c then
      match parseNatNum (c :: cs') with
      | some (n, r) => some (.int (n : Int), r)
      | Option.none => Option.none
    else
      match expectLit "None".data cs with
      | some r => some (.none, r)
      | Option.none =>
        match expectLit "True".data cs with
        | some r => some (.bool true, r)
        | Option.none =>
          match expectLit "False".data cs with
          | some r => some (.bool false, r)
          | Option.none => Option.none

/-- Reconstruction of one rendered `Content.to_dict` dict (for C8). -/
def parseContentPair (cs : List Char) : Option ((PyVal × PyVal) × List Char) :=
  match expectLit "\x7b'description': ".data cs with
  | Option.none => Option.none
  | some cs1 =>
    match parsePyVal cs1 with
    | Option.none => Option.none
    | some (dv, cs2) =>
      match expectLit ", 'extra': ".data cs2 with
      | Option.none => Option.none
      | some cs3 =>
        match parsePyVal cs3 with
        | Option.none => Option.none
        | some (ev, cs4) =>
          match expectLit "\x7d".data cs4 with
          | Option.none => Option.none
          | some cs5 => some ((dv, ev), cs5)

/-- Reconstruction of a nonempty rendered entry sequence up to and including
the closing brace (for C8); `fuel` bounds the number of entries. -/
def parseEntries : Nat → List Char → Option (DocsDict × List Char)
  | 0, _ => Option.none
  | fuel + 1, cs =>
    match parsePyVal cs with
    | some (.str k, cs1) =>
      (match expectLit ": ".data cs1 with
       | Option.none => Option.none
       | some cs2 =>
         match parseContentPair cs2 with
         | Option.none => Option.none
         | some (cv, cs3) =>
           match cs3 with
           | '\x7d' :: r => some ([(k, cv)], r)
           | ',' :: ' ' :: r =>
             (match parseEntries fuel r with
              | some (more, r') => some ((k, cv) :: more, r')
              | Option.none => Option.none)
           | _ => Option.none)
    | _ => Option.none

/-- Reconstruction of a full rendered registry dict (for C8). -/
def parseDictTop (cs : List Char) : Option (DocsDict × List Char) :=
  match cs with
  | [] => Option.none
  | lb :: cs' =>
    if lb = '\x7b' then
      match cs' with
      | [] => Option.none
      | rb :: r => if rb = '\x7d' then some ([], r) else parseEntries cs'.length cs'
    else Option.none

/-- Reconstruction function for the round-trip claim (C8): not part of the
source; it inverts `Docs.render` back into the mapping structure
`Docs.to_dict` exposes. -/
def docsParse (s : String) : Option DocsDict :=
  match parseDictTop s.data with
  | some (dd, []) => some dd
  | _ => Option.none

/-- Printable-ASCII character (the range Python's string `repr` prints with
only backslash/quote escapes). -/
def validChar (c : Char) : Bool := 32 ≤ c.toNat && c.toNat ≤ 126

/-- Printable-ASCII string. -/
def validStr (s : String) : Bool := s.data.all validChar

/-- A value whose Python `repr` is a faithful literal: `None`, booleans,
integers, and printable-ASCII strings (not sentinel instances, whose `repr`
`'...'` does not denote them). -/
def PyVal.isLiteral : PyVal → Bool
  | .missingSentinel _ => false
  | .str s => validStr s
  | _ => true

/-- A registry entry whose rendered form is faithful: printable-ASCII
description and literal extra. -/
def contentValid (c : Content) : Bool :=
  (match c.description with
   | Option.none => true
   | some s => validStr s) && c.extra.isLiteral

/-- A registry state whose rendered form is faithful: printable-ASCII keys
and valid contents. -/
def docsValid (d : Docs) : Bool :=
  d.data.all (fun kc => validStr kc.1 && contentValid kc.2)

/-- Whether the input does not continue with a decimal digit (the context in
which a rendered integer is followed by `,` or the closing brace). -/
def headNotDigit : List Char → Bool
  | [] => true
  | c :: _ => !isDigitCh c

/-- A raised `ZeroDivisionError`: its class derives from `Exception`. -/
def zeroDivExc : Exc := ⟨true, "ZeroDivisionError", "division by zero"⟩

/-- A function whose every call raises `zeroDivExc`. -/
def raisingFunc : PyVal → PyResult PyVal := fun _ => .raised zeroDivExc

/-- A raised `KeyboardInterrupt`: its class derives from `BaseException`
but not from `Exception`. -/
def kbIntExc : Exc := ⟨false, "KeyboardInterrupt", ""⟩

/-- A function whose every call raises `kbIntExc`. -/
def kbRaisingFunc : PyVal → PyResult PyVal := fun _ => .raised kbIntExc

/-- The identity function, returning its argument normally. -/
def okFunc : PyVal → PyResult PyVal := fun v => .ok v

/-- A candidate object with a single attribute `a = 1`. -/
def exItem : Obj := .obj [("a", .val (.int 1))]

/-- A method `run` scoped under class `A`. -/
def funcARun : PyFunc PyVal PyVal := ⟨"A.run", some "run of A", id⟩

/-- A method `run` scoped under class `B`: same bare name, distinct scope. -/
def funcBRun : PyFunc PyVal PyVal := ⟨"B.run", some "run of B", id⟩

/-- A registry whose single entry has the module's `MISSING` sentinel as its
extra metadata. -/
def c8docA : Docs := ⟨[("func", ⟨Option.none, MISSING⟩)]⟩

/-- A registry whose single entry has a second, distinct `_MissingSentinel`
instance as its extra metadata. -/
def c8docB : Docs := ⟨[("func", ⟨Option.none, PyVal.missingSentinel 1⟩)]⟩

/-- A concrete two-entry registry with literal contents. -/
def c8docDemo : Docs :=
  ⟨[("A.f", ⟨some "doc of f", PyVal.int (-42)⟩),
    ("B.g", ⟨Option.none, PyVal.str "it's a \"g\""⟩)]⟩

/-- C1 (amended): for every function wrapped by
`ErrorHandler.error_handling(ignore_exception=True)` and every call on which
the function raises a failure whose class derives from `Exception`, the
wrapper swallows the failure and returns `None`; no such failure escapes and
the `on_error` hook is not invoked. -/
theorem C1_ignore_swallows_exceptions {α : Type} (onErr : OnErrorHook α)
    (func : α → PyResult PyVal) (args : α) (e : Exc)
    (hraise : func args = .raised e) (hexc : e.isException = true) :
    ErrorHandler.error_handling onErr true func args = (.ok PyVal.none, ⟨1, 0⟩) := by
  simp [ErrorHandler.error_handling, hraise, hexc]

/-- Witness for C1: a wrapped function raising `ZeroDivisionError` under
`ignore_exception=True` returns `None` and no failure escapes. -/
theorem C1_witness :
    ErrorHandler.error_handling ErrorHandler.on_error true raisingFunc PyVal.none
      = (.ok PyVal.none, ⟨1, 0⟩) :=
  C1_ignore_swallows_exceptions ErrorHandler.on_error raisingFunc PyVal.none zeroDivExc rfl rfl

/-- Counterexample for C1 as stated: a raised `KeyboardInterrupt` (a failure
outside the `Exception` hierarchy) is not swallowed under
`ignore_exception=True`; the wrapper's result is the escaping failure, not an
absent result. -/
theorem C1_counterexample :
    (ErrorHandler.error_handling ErrorHandler.on_error true kbRaisingFunc PyVal.none).1
      = .raised kbIntExc ∧
    (ErrorHandler.error_handling ErrorHandler.on_error true kbRaisingFunc PyVal.none).1
      ≠ .ok PyVal.none := by
  constructor
  · rfl
  · decide

/-- C2 (amended): with `ignore_exception=False` and the default `on_error`
hook, a failure in the `Exception` hierarchy raised by the wrapped function
is passed to `on_error` (invoked exactly once, receiving the failure, the
function and the original arguments by the definition of
`ErrorHandler.error_handling`), and the original failure escapes with its
class and message unchanged.  Failures outside the `Exception` hierarchy
escape unchanged too, but without `on_error` being invoked (see the
counterexample below). -/
theorem C2_default_on_error_reraises {α : Type}
    (func : α → PyResult PyVal) (args : α) (e : Exc)
    (hraise : func args = .raised e) (hexc : e.isException = true) :
    ErrorHandler.error_handling ErrorHandler.on_error false func args
      = (.raised e, ⟨1, 1⟩) := by
  simp [ErrorHandler.error_handling, ErrorHandler.on_error, hraise, hexc]

/-- Witness for C2: a wrapped function raising `ZeroDivisionError` under the
default policy re-raises exactly that failure. -/
theorem C2_witness :
    ErrorHandler.error_handling ErrorHandler.on_error false raisingFunc PyVal.none
      = (.raised zeroDivExc, ⟨1, 1⟩) :=
  C2_default_on_error_reraises raisingFunc PyVal.none zeroDivExc rfl rfl

/-- Counterexample for C2 as stated: under `ignore_exception=False` and the
default hook, a wrapped function raising `KeyboardInterrupt` (a failure
outside the `Exception` hierarchy) lets the failure escape, but `on_error`
is never invoked for it (the hook-invocation counter is `0`), refuting the
claim's "the wrapper invokes on_error with the failure" for such failures. -/
theorem C2_counterexample :
    ErrorHandler.error_handling ErrorHandler.on_error false kbRaisingFunc PyVal.none
      = (.raised kbIntExc, ⟨1, 0⟩) ∧
    (ErrorHandler.error_handling ErrorHandler.on_error false kbRaisingFunc PyVal.none).2.onErrorCalls
      = 0 := by
  constructor
  · rfl
  · rfl

/-- C7: for either `ignore_exception` value and any `on_error` hook, a
wrapped function that returns normally has its value returned unchanged with
the hook never invoked, and every call of the wrapper invokes the wrapped
function at most once. -/
theorem C7_success_passthrough_single_invocation {α : Type} (onErr : OnErrorHook α)
    (ignore_exception : Bool) (func : α → PyResult PyVal) (args : α) :
    (∀ v, func args = .ok v →
      ErrorHandler.error_handling onErr ignore_exception func args = (.ok v, ⟨1, 0⟩)) ∧
    (ErrorHandler.error_handling onErr ignore_exception func args).2.funcCalls ≤ 1 := by
  constructor
  · intro v hv
    simp [ErrorHandler.error_handling, hv]
  · unfold ErrorHandler.error_handling
    rcases hfa : func args with v | e
    · exact Nat.le_refl 1
    · rcases he : e.isException
      · simp [he]
      · rcases ignore_exception
        · simp [he]
          rcases honq : onErr e func args with v2 | e2 <;> simp
        · simp [he]

/-- Witness for C7: the wrapper around the identity function returns its
argument unchanged with the hook uninvoked, in exactly one invocation. -/
theorem C7_witness :
    ErrorHandler.error_handling ErrorHandler.on_error false okFunc (PyVal.int 5)
      = (.ok (PyVal.int 5), ⟨1, 0⟩) ∧
    (ErrorHandler.error_handling ErrorHandler.on_error false okFunc (PyVal.int 5)).2.funcCalls ≤ 1 :=
  ⟨(C7_success_passthrough_single_invocation ErrorHandler.on_error false okFunc (PyVal.int 5)).1
      (PyVal.int 5) rfl,
   (C7_success_passthrough_single_invocation ErrorHandler.on_error false okFunc (PyVal.int 5)).2⟩

/-- C10: failures outside the `Exception` hierarchy (such as
`KeyboardInterrupt` or `SystemExit`) are not intercepted by the wrapper:
for either `ignore_exception` value and any hook they propagate unchanged,
and `on_error` is not invoked. -/
theorem C10_non_exception_failures_escape {α : Type} (onErr : OnErrorHook α)
    (ignore_exception : Bool) (func : α → PyResult PyVal) (args : α) (e : Exc)
    (hraise : func args = .raised e) (hnot : e.isException = false) :
    ErrorHandler.error_handling onErr ignore_exception func args = (.raised e, ⟨1, 0⟩) := by
  simp [ErrorHandler.error_handling, hraise, hnot]

/-- Witness for C10: a raised `KeyboardInterrupt` escapes unchanged even with
`ignore_exception=True`, with the hook uninvoked. -/
theorem C10_witness :
    ErrorHandler.error_handling ErrorHandler.on_error true kbRaisingFunc PyVal.none
      = (.raised kbIntExc, ⟨1, 0⟩) :=
  C10_non_exception_failures_escape ErrorHandler.on_error true kbRaisingFunc PyVal.none
    kbIntExc rfl rfl

/-- C9: the `MISSING` sentinel is falsy, compares unequal under `==` to every
value on either side (including itself), and its `repr` is the stable string
`'...'`. -/
theorem C9_missing_sentinel_semantics :
    pyBool MISSING = false ∧
    (∀ v : PyVal, pyEq MISSING v = false ∧ pyEq v MISSING = false) ∧
    pyRepr MISSING = "..." := by
  refine ⟨rfl, fun v => ⟨?_, ?_⟩, by decide⟩ <;> cases v <;> rfl

/-- C6: the wrapper returned by a `Docs.register_doc(...)` decoration
forwards every call to the original function and returns its value
unchanged. -/
theorem C6_register_doc_wrapper_passthrough {α β : Type} (docs : Docs)
    (extra : PyVal) (func : PyFunc α β) (args : α) :
    (docs.register_doc extra func).2 args = func.call args := rfl

/-- Looking up the key just assigned by a Python dict assignment yields the
assigned value. -/
theorem dictLookup_dictInsert_self (k : String) (v : Content)
    (l : List (String × Content)) : dictLookup k (dictInsert k v l) = some v := by
  induction l with
  | nil => simp [dictInsert, dictLookup]
  | cons kv rest ih =>
    rcases kv with ⟨k0, v0⟩
    by_cases h : k0 = k
    · simp [dictInsert, dictLookup, h]
    · simp [dictInsert, dictLookup, h, ih]

/-- A Python dict assignment leaves the value of every other key unchanged. -/
theorem dictLookup_dictInsert_ne (k k' : String) (v : Content)
    (l : List (String × Content)) (h : k' ≠ k) :
    dictLookup k' (dictInsert k v l) = dictLookup k' l := by
  induction l with
  | nil => simp [dictInsert, dictLookup, Ne.symm h]
  | cons kv rest ih =>
    rcases kv with ⟨k0, v0⟩
    by_cases h0 : k0 = k
    · subst h0
      simp [dictInsert, dictLookup, Ne.symm h]
    · by_cases h1 : k0 = k'
      · subst h1
        simp [dictInsert, dictLookup, h0]
      · simp [dictInsert, dictLookup, h0, h1, ih]

/-- C3: decorating a function through `Docs.register_doc(extra)` stores, at
decoration time, the entry `Content(description=func.__doc__, extra=extra)`
under the function's qualified name; functions with distinct qualified names
(as two distinctly-scoped functions of the same bare name have) occupy
distinct keys that do not disturb each other; and re-registering the same
qualified name overwrites the entry, so the last registration wins. -/
theorem C3_register_doc_registry_semantics {α β : Type} (docs : Docs)
    (f g : PyFunc α β) (ef eg eg2 : PyVal) :
    dictLookup f.qualname ((docs.register_doc ef f).1).data = some ⟨f.doc, ef⟩ ∧
    (f.qualname ≠ g.qualname →
      dictLookup g.qualname (((docs.register_doc ef f).1.register_doc eg g).1).data
        = some ⟨g.doc, eg⟩ ∧
      dictLookup f.qualname (((docs.register_doc ef f).1.register_doc eg g).1).data
        = some ⟨f.doc, ef⟩) ∧
    dictLookup f.qualname (((docs.register_doc ef f).1.register_doc eg2 f).1).data
      = some ⟨f.doc, eg2⟩ := by
  refine ⟨dictLookup_dictInsert_self _ _ _, fun hne => ⟨dictLookup_dictInsert_self _ _ _, ?_⟩,
    dictLookup_dictInsert_self _ _ _⟩
  show dictLookup f.qualname (dictInsert g.qualname ⟨g.doc, eg⟩ _) = _
  rw [dictLookup_dictInsert_ne _ _ _ _ hne]
  exact dictLookup_dictInsert_self _ _ _

/-- Witness for C3: registering `A.run` and `B.run` (same bare name `run`,
distinct scopes) keeps both entries, and re-registering `A.run` with a new
extra value leaves only the latest entry for it. -/
theorem C3_witness :
    dictLookup "A.run" (((⟨[]⟩ : Docs).register_doc (PyVal.int 1) funcARun).1).data
      = some ⟨some "run of A", PyVal.int 1⟩ ∧
    dictLookup "B.run"
        (((((⟨[]⟩ : Docs).register_doc (PyVal.int 1) funcARun).1).register_doc
          (PyVal.int 2) funcBRun).1).data = some ⟨some "run of B", PyVal.int 2⟩ ∧
    dictLookup "A.run"
        (((((⟨[]⟩ : Docs).register_doc (PyVal.int 1) funcARun).1).register_doc
          (PyVal.int 2) funcBRun).1).data = some ⟨some "run of A", PyVal.int 1⟩ ∧
    dictLookup "A.run"
        (((((⟨[]⟩ : Docs).register_doc (PyVal.int 1) funcARun).1).register_doc
          (PyVal.int 3) funcARun).1).data = some ⟨some "run of A", PyVal.int 3⟩ := by
  have h := C3_register_doc_registry_semantics (⟨[]⟩ : Docs) funcARun funcBRun
    (PyVal.int 1) (PyVal.int 2) (PyVal.int 3)
  have hne : funcARun.qualname ≠ funcBRun.qualname := by decide
  exact ⟨h.1, (h.2.1 hne).1, (h.2.1 hne).2, h.2.2⟩

/-- C4: `get` with an empty condition map returns the first element of the
iterable (`None` when it is empty); and whenever every candidate cleanly
fails the conditions (no attribute-resolution failure, not all flags true),
`get` exhausts the iterable and returns `None` without raising. -/
theorem C4_first_element_and_clean_miss (items : List Obj)
    (conditions : List (String × Obj)) :
    Utils.get items [] = .ok items.head? ∧
    ((∀ x ∈ items, itemMatches x conditions = .ok false) →
      Utils.get items conditions = .ok Option.none) := by
  constructor
  · cases items with
    | nil => rfl
    | cons a l => rfl
  · intro h
    induction items with
    | nil => rfl
    | cons a l ih =>
      have ha := h a (by simp)
      unfold itemMatches at ha
      rcases hfa : itemFlags a conditions with e | flags <;> rw [hfa] at ha
      · exact absurd ha (by simp)
      · simp only [Except.ok.injEq] at ha
        simp [Utils.get, hfa, ha]
        exact ih (fun x hx => h x (by simp [hx]))

/-- Witness for C4: on a one-element iterable, `get` with no conditions
returns the element, and with a failing condition `a == 2` returns `None`
without raising. -/
theorem C4_witness :
    Utils.get [exItem] [] = .ok (some exItem) ∧
    Utils.get [exItem] [("a", .val (.int 2))] = .ok Option.none := by
  have h := C4_first_element_and_clean_miss [exItem] [("a", .val (.int 2))]
  exact ⟨h.1, h.2 (by intro x hx; rw [List.mem_singleton] at hx; subst hx; rfl)⟩

/-- C5: if every candidate before some position cleanly fails the conditions
and the candidate at that position raises an attribute-resolution failure for
one of the condition paths, `get` raises that failure to its caller and the
search is aborted: the candidates after that position are never examined
(the result does not depend on them). -/
theorem C5_attribute_failure_aborts_search (pre post : List Obj) (bad : Obj)
    (conditions : List (String × Obj)) (e : String)
    (hpre : ∀ x ∈ pre, itemMatches x conditions = .ok false)
    (hbad : itemFlags bad conditions = .error e) :
    Utils.get (pre ++ bad :: post) conditions = .error e := by
  induction pre with
  | nil => simp [Utils.get, hbad]
  | cons a l ih =>
    have ha := hpre a (by simp)
    unfold itemMatches at ha
    rcases hfa : itemFlags a conditions with e0 | flags <;> rw [hfa] at ha
    · exact absurd ha (by simp)
    · simp only [Except.ok.injEq] at ha
      simp [Utils.get, hfa, ha]
      exact ih (fun x hx => hpre x (by simp [hx]))

/-- Witness for C5: a condition path `b.c` whose first segment is missing on
the candidate raises `AttributeError` out of `get`, aborting the search even
though a later candidate exists. -/
theorem C5_witness :
    Utils.get [exItem, Obj.obj [("b", .obj [("c", .val (.int 1))])]]
        [("b.c", .val (.int 1))] = .error "AttributeError: b" := by
  have h := C5_attribute_failure_aborts_search []
    [Obj.obj [("b", .obj [("c", .val (.int 1))])]] exItem
    [("b.c", .val (.int 1))] "AttributeError: b"
    (by intro x hx; simp at hx) rfl
  exact h

/-- Rebuilding a string from its character data is the identity. -/
theorem stringMk_data (s : String) : String.mk s.data = s := by
  cases s
  rfl

/-- Matching a literal sequence at the front of its own append succeeds. -/
theorem expectLit_append (p rest : List Char) : expectLit p (p ++ rest) = some rest := by
  induction p with
  | nil => rfl
  | cons c ps ih => simp [expectLit, ih]

/-- Reading a string body undoes the escaping that produced it. -/
theorem parseStrBody_escapeBody (q : Char) (hq : q ≠ '\\') (l rest : List Char) :
    parseStrBody q (escapeBody q l ++ q :: rest) = some (l, rest) := by
  induction l with
  | nil =>
    show parseStrBody q (q :: rest) = some ([], rest)
    unfold parseStrBody
    simp [hq]
  | cons c cs ih =>
    by_cases hc1 : c = '\\'
    · rw [show escapeBody q (c :: cs) = '\\' :: c :: escapeBody q cs from by simp [escapeBody, hc1]]
      show parseStrBody q ('\\' :: (c :: (escapeBody q cs ++ q :: rest))) = _
      unfold parseStrBody
      simp [ih]
    · by_cases hc2 : c = q
      · rw [show escapeBody q (c :: cs) = '\\' :: c :: escapeBody q cs from by simp [escapeBody, hc2]]
        show parseStrBody q ('\\' :: (c :: (escapeBody q cs ++ q :: rest))) = _
        unfold parseStrBody
        simp [ih]
      · rw [show escapeBody q (c :: cs) = c :: escapeBody q cs from by simp [escapeBody, hc1, hc2]]
        show parseStrBody q (c :: (escapeBody q cs ++ q :: rest)) = _
        unfold parseStrBody
        simp [hc1, hc2, ih]

/-- The chosen quote character is never a backslash. -/
theorem quoteChoice_ne_backslash (l : List Char) : quoteChoice l ≠ '\\' := by
  unfold quoteChoice
  split <;> decide

/-- The chosen quote character is one of the two quote characters. -/
theorem quoteChoice_quote (l : List Char) :
    quoteChoice l = '\'' ∨ quoteChoice l = '"' := by
  unfold quoteChoice
  split
  · right; rfl
  · left; rfl

/-- Reading a rendered string literal recovers the original string. -/
theorem parsePyVal_strLit (l rest : List Char) :
    parsePyVal (strLitChars l ++ rest) = some (.str (String.mk l), rest) := by
  have hbody := parseStrBody_escapeBody (quoteChoice l) (quoteChoice_ne_backslash l) l rest
  rcases quoteChoice_quote l with hq | hq <;>
    rw [hq] at hbody <;>
    simp [strLitChars, parsePyVal, List.append_assoc, hq, hbody]

/-- Value of a decimal digit character. -/
theorem digitCh_toNat (d : Nat) (hd : d < 10) : (digitCh d).toNat = 48 + d := by
  interval_cases d <;> rfl

/-- Digit characters pass the digit test. -/
theorem isDigitCh_digitCh (d : Nat) (hd : d < 10) : isDigitCh (digitCh d) = true := by
  interval_cases d <;> rfl

/-- A digit character is not a quote or a minus sign. -/
theorem isDigitCh_not_special (c : Char) (h : isDigitCh c = true) :
    c ≠ '\'' ∧ c ≠ '"' ∧ c ≠ '-' := by
  refine ⟨?_, ?_, ?_⟩ <;> intro hc <;> subst hc <;> exact absurd h (by decide)

/-- Reading digits recovers a rendered digit sequence, stopping at the first
non-digit. -/
theorem parseDigits_digits (ds : List Nat) (rest : List Char)
    (hds : ∀ d ∈ ds, d < 10) (hrest : headNotDigit rest = true) :
    parseDigits (ds.map digitCh ++ rest) = (ds, rest) := by
  induction ds with
  | nil =>
    cases rest with
    | nil => rfl
    | cons c cs =>
      have hc : isDigitCh c = false := by
        simpa [headNotDigit] using hrest
      simp [parseDigits, hc]
  | cons d ds ih =>
    have hd : d < 10 := hds d (by simp)
    simp [parseDigits, isDigitCh_digitCh d hd, digitCh_toNat d hd,
      ih (fun x hx => hds x (by simp [hx]))]

/-- Every big-endian digit of a natural number is below the base. -/
theorem bigDigits_lt (n : Nat) : ∀ d ∈ bigDigits n, d < 10 := by
  intro d hd
  unfold bigDigits at hd
  by_cases h : n = 0
  · simp [h] at hd
    omega
  · simp [h, List.mem_reverse] at hd
    exact Nat.digits_lt_base (by norm_num) hd

/-- The big-endian digit list is never empty. -/
theorem bigDigits_ne_nil (n : Nat) : bigDigits n ≠ [] := by
  unfold bigDigits
  by_cases h : n = 0
  · simp [h]
  · simp [h, Nat.digits_ne_nil_iff_ne_zero]

/-- Folding most-significant-first digits is evaluation of the reversed
little-endian digit list. -/
theorem foldl_reverse_ofDigits (L : List Nat) (a : Nat) :
    L.reverse.foldl (fun acc d => 10 * acc + d) a
      = Nat.ofDigits 10 L + a * 10 ^ L.length := by
  induction L generalizing a with
  | nil => simp [Nat.ofDigits_nil]
  | cons d L ih =>
    simp [List.reverse_cons, List.foldl_append, ih, Nat.ofDigits_cons, pow_succ]
    ring

/-- Evaluating the big-endian digits of `n` gives back `n`. -/
theorem natOfBE_bigDigits (n : Nat) : natOfBE (bigDigits n) = n := by
  unfold natOfBE bigDigits
  by_cases h : n = 0
  · simp [h]
  · simp [h]
    have hfold := foldl_reverse_ofDigits (Nat.digits 10 n) 0
    simpa [Nat.ofDigits_digits] using hfold

/-- Reading a rendered natural number recovers it, given that the input does
not continue with a digit. -/
theorem parseNatNum_natChars (n : Nat) (rest : List Char)
    (hrest : headNotDigit rest = true) :
    parseNatNum (natChars n ++ rest) = some (n, rest) := by
  unfold parseNatNum natChars
  rw [parseDigits_digits (bigDigits n) rest (bigDigits_lt n) hrest]
  rcases hbd : bigDigits n with _ | ⟨d, ds⟩
  · exact absurd hbd (bigDigits_ne_nil n)
  · have := natOfBE_bigDigits n
    rw [hbd] at this
    simp [this]

/-- The rendering of a natural number starts with a digit character. -/
theorem natChars_head_digit (n : Nat) :
    ∃ c cs, natChars n = c :: cs ∧ isDigitCh c = true := by
  unfold natChars
  rcases hbd : bigDigits n with _ | ⟨d, ds⟩
  · exact absurd hbd (bigDigits_ne_nil n)
  · refine ⟨digitCh d, ds.map digitCh, by simp, ?_⟩
    exact isDigitCh_digitCh d (bigDigits_lt n d (by rw [hbd]; simp))

/-- Reading one rendered literal value recovers it, given that the input does
not continue with a digit. -/
theorem parsePyVal_repr (v : PyVal) (hv : v.isLiteral = true) (rest : List Char)
    (hrest : headNotDigit rest = true) :
    parsePyVal (pyReprChars v ++ rest) = some (v, rest) := by
  cases v with
  | none =>
    rw [show pyReprChars .none = ['N', 'o', 'n', 'e'] from by decide]
    simp [parsePyVal, expectLit, show isDigitCh 'N' = false from by decide]
  | bool b =>
    cases b with
    | true =>
      rw [show pyReprChars (.bool true) = ['T', 'r', 'u', 'e'] from by decide]
      simp [parsePyVal, expectLit, show isDigitCh 'T' = false from by decide]
    | false =>
      rw [show pyReprChars (.bool false) = ['F', 'a', 'l', 's', 'e'] from by decide]
      simp [parsePyVal, expectLit, show isDigitCh 'F' = false from by decide]
  | int i =>
    by_cases hi : i < 0
    · rw [show pyReprChars (.int i) = '-' :: natChars i.natAbs from by
        simp [pyReprChars, intChars, hi]]
      have hnum := parseNatNum_natChars i.natAbs rest hrest
      have hval : -((i.natAbs : Nat) : Int) = i := by omega
      simp [parsePyVal, hnum, hval]
      rw [abs_of_neg hi, neg_neg]
    · obtain ⟨c0, cs0, hnc0, hdc0⟩ := natChars_head_digit i.toNat
      obtain ⟨h1, h2, h3⟩ := isDigitCh_not_special c0 hdc0
      have hnum := parseNatNum_natChars i.toNat rest hrest
      rw [hnc0] at hnum
      simp only [List.cons_append] at hnum
      rw [show pyReprChars (.int i) = natChars i.toNat from by
        simp [pyReprChars, intChars, hi]]
      rw [hnc0]
      have hval : ((i.toNat : Nat) : Int) = i := Int.toNat_of_nonneg (by omega)
      simp [parsePyVal, h1, h2, h3, hdc0, hnum, hval]
  | str s =>
    have h := parsePyVal_strLit s.data rest
    rw [stringMk_data] at h
    simpa [pyReprChars] using h
  | missingSentinel id => exact absurd hv (by simp [PyVal.isLiteral])

/-- The stored description renders as a literal whenever the entry is valid. -/
theorem descVal_isLiteral (d : Option String)
    (hd : (match d with | Option.none => true | some s => validStr s) = true) :
    (descVal d).isLiteral = true := by
  cases d with
  | none => rfl
  | some s => simpa [descVal, PyVal.isLiteral] using hd

/-- Reading one rendered content dict recovers the `to_dict` pair. -/
theorem parseContentPair_contentChars (c : Content) (hc : contentValid c = true)
    (rest : List Char) :
    parseContentPair (contentChars c ++ rest) = some (c.to_dict, rest) := by
  have hcv := hc
  unfold contentValid at hcv
  rw [Bool.and_eq_true] at hcv
  have hdesc : (descVal c.description).isLiteral = true := descVal_isLiteral _ hcv.1
  have hextra : c.extra.isLiteral = true := hcv.2
  have hd := parsePyVal_repr (descVal c.description) hdesc
    (", 'extra': ".data ++ (pyReprChars c.extra ++ ('\x7d' :: rest))) (by rfl)
  have he := parsePyVal_repr c.extra hextra ('\x7d' :: rest) (by rfl)
  simp [List.append_assoc] at hd he
  simp [contentChars, parseContentPair, List.append_assoc, expectLit, hd, he,
    Content.to_dict]

/-- Reading a nonempty rendered entry sequence (terminated by the closing
brace) recovers the entries' `to_dict` pairs, for any sufficient fuel. -/
theorem parseEntries_entriesChars (l : List (String × Content)) :
    ∀ (fuel : Nat) (rest : List Char), l ≠ [] → l.length ≤ fuel →
      l.all (fun kc => validStr kc.1 && contentValid kc.2) = true →
      parseEntries fuel (entriesChars l ++ '\x7d' :: rest)
        = some (l.map (fun kc => (kc.1, kc.2.to_dict)), rest) := by
  induction l with
  | nil =>
    intro fuel rest hne
    exact absurd rfl hne
  | cons kc tail ih =>
    intro fuel rest hne hlen hval
    rcases fuel with _ | fuel
    · simp at hlen
    rcases kc with ⟨k, c⟩
    rw [List.all_cons, Bool.and_eq_true] at hval
    rw [Bool.and_eq_true] at hval
    have hkey := parsePyVal_strLit k.data
    simp only [stringMk_data] at hkey
    cases tail with
    | nil =>
      have hcp := parseContentPair_contentChars c hval.1.2 ('\x7d' :: rest)
      simp [List.append_assoc] at hkey hcp
      simp [parseEntries, entriesChars, entryChars, List.append_assoc, expectLit, hkey, hcp]
    | cons b tl =>
      have hcp := parseContentPair_contentChars c hval.1.2
        (',' :: ' ' :: (entriesChars (b :: tl) ++ '\x7d' :: rest))
      have hih := ih fuel rest (by simp) (by simpa using Nat.lt_succ_iff.mp hlen) hval.2
      simp [List.append_assoc] at hkey hcp
      simp [parseEntries, entriesChars, entryChars, List.append_assoc, expectLit, hkey, hcp, hih]

/-- The entry count is bounded by the rendered length (plus one). -/
theorem length_le_entriesChars (l : List (String × Content)) :
    l.length ≤ (entriesChars l).length + 1 := by
  induction l with
  | nil => simp [entriesChars]
  | cons kc tail ih =>
    cases tail with
    | nil => simp [entriesChars]
    | cons b tl =>
      simp [entriesChars, List.length_append] at ih ⊢
      omega

/-- A rendered entry starts with its key's quote character. -/
theorem entryChars_head (kc : String × Content) :
    ∃ t, entryChars kc = quoteChoice kc.1.data :: t :=
  ⟨(escapeBody (quoteChoice kc.1.data) kc.1.data ++ [quoteChoice kc.1.data]) ++
      (": ".data ++ contentChars kc.2), by
    simp [entryChars, strLitChars]⟩

/-- A nonempty rendered entry sequence starts with the first key's quote
character. -/
theorem entriesChars_cons_head (kc : String × Content)
    (tail : List (String × Content)) :
    ∃ t, entriesChars (kc :: tail) = quoteChoice kc.1.data :: t := by
  obtain ⟨t0, ht0⟩ := entryChars_head kc
  cases tail with
  | nil => exact ⟨t0, by simp [entriesChars, ht0]⟩
  | cons b tl =>
    exact ⟨t0 ++ ',' :: ' ' :: entriesChars (b :: tl), by simp [entriesChars, ht0]⟩

/-- Reading a rendered dict whose body starts with a non-brace character
dispatches to the entry reader. -/
theorem parseDictTop_entries (cs : List Char)
    (h : ∃ c t, cs = c :: t ∧ c ≠ '\x7d') :
    parseDictTop ('\x7b' :: cs) = parseEntries cs.length cs := by
  obtain ⟨c, t, rfl, hc⟩ := h
  simp [parseDictTop, hc]

/-- C8 (amended): for every registry state whose descriptions and extras are
literal values (absent/`None`, booleans, integers, printable-ASCII strings),
the dict-style string rendering of the registry loses no information: the
reconstruction `docsParse` recovers from it exactly the mapping structure
that `Docs.to_dict` exposes. -/
theorem C8_render_roundtrip (d : Docs) (hv : docsValid d = true) :
    docsParse d.render = some d.to_dict := by
  unfold docsValid at hv
  rcases hd : d.data with _ | ⟨kc, tail⟩
  · simp [docsParse, Docs.render, docsChars, entriesChars, hd, parseDictTop, Docs.to_dict]
  · rw [hd] at hv
    obtain ⟨t, ht⟩ := entriesChars_cons_head kc tail
    have hq : quoteChoice kc.1.data ≠ '\x7d' := by
      rcases quoteChoice_quote kc.1.data with h | h <;> rw [h] <;> decide
    have hlen : (kc :: tail).length
        ≤ (entriesChars (kc :: tail) ++ '\x7d' :: ([] : List Char)).length := by
      have hb := length_le_entriesChars (kc :: tail)
      simp only [List.length_append, List.length_cons] at hb ⊢
      omega
    have hpe := parseEntries_entriesChars (kc :: tail)
      (entriesChars (kc :: tail) ++ '\x7d' :: ([] : List Char)).length []
      (by simp) hlen hv
    unfold docsParse Docs.render
    show (match parseDictTop (docsChars d) with
          | some (dd, []) => some dd
          | _ => Option.none) = some d.to_dict
    rw [show docsChars d = '\x7b' :: (entriesChars (kc :: tail) ++ ['\x7d']) from by
      rw [docsChars, hd]]
    rw [parseDictTop_entries _ ⟨quoteChoice kc.1.data, t ++ ['\x7d'], by rw [ht]; rfl, hq⟩]
    rw [hpe]
    simp [Docs.to_dict, hd]

/-- Counterexample for C8 as stated: two registry states that differ in their
`extra` metadata (the `MISSING` sentinel versus a second, distinct
`_MissingSentinel` instance — both render as `...`) have identical string
renderings but different `data()`/`to_dict()` mappings, so no reconstruction
of the string form can recover the mapping for every registry state: the
string form loses information. -/
theorem C8_counterexample :
    Docs.render c8docA = Docs.render c8docB ∧
    Docs.to_dict c8docA ≠ Docs.to_dict c8docB := by
  constructor
  · rfl
  · decide

/-- Witness for C8: a concrete two-entry registry with literal descriptions
and extras (including a negative integer and a string containing both kinds
of quotes) satisfies the validity hypothesis, and its rendering reconstructs
to exactly its `to_dict` mapping. -/
theorem C8_witness :
    docsValid c8docDemo = true ∧
    docsParse c8docDemo.render = some c8docDemo.to_dict :=
  ⟨by decide, C8_render_roundtrip c8docDemo (by decide)⟩
